import Mathlib

/-!
Verification of the in-flight operation admission-control registry
(`yb/tablet/operations/operation_tracker.cc`).

The registry (`OperationTracker`) couples a pending-set of in-flight
operations to an optional hierarchical memory budget (`MemTracker`) and an
optional metrics block.  We embed the tracker state as a structure, the
operations `Add`, `Release`, `WaitForAllToFinish`, the destructor and
`StartMemoryTracking` as pure functions over that state, and prove the
specified properties about them.
-/

namespace YbTablet

/-- The `Operation::OperationType` enumeration: the closed five-member category set used as
the key of the per-category in-flight gauges. -/
inductive OperationType where
  | WRITE_TXN
  | ALTER_SCHEMA_TXN
  | UPDATE_TRANSACTION_TXN
  | SNAPSHOT_TXN
  | TRUNCATE_TXN
deriving DecidableEq, Repr

/-- Modelled from the spec: the hierarchical `MemTracker` memory-budget node
(`yb/util/mem_tracker.h` is not under `src/`; spec section 6 gives its
contract).  We model the child node the tracker owns: `limit` (i64) and
`consumption` (i64).  Saturation of an ancestor node is external
nondeterminism, supplied to `tryConsume` as the `ancestorOk` flag. -/
structure MemTracker where
  limit : Int
  consumption : Int
deriving DecidableEq, Repr

/-- Modelled from the spec: `try_consume(bytes) -> bool` is a best-effort
reservation that fails, leaving consumption unchanged, when this node would
exceed its limit or when some ancestor is saturated (`ancestorOk = false`);
on success it adds `bytes` to consumption. -/
def MemTracker.tryConsume (mt : MemTracker) (bytes : Int) (ancestorOk : Bool) :
    Bool × MemTracker :=
  if ancestorOk ∧ mt.consumption + bytes ≤ mt.limit then
    (true, { mt with consumption := mt.consumption + bytes })
  else
    (false, mt)

/-- Modelled from the spec: `release(bytes)` unconditionally gives `bytes`
back to the budget. -/
def MemTracker.release (mt : MemTracker) (bytes : Int) : MemTracker :=
  { mt with consumption := mt.consumption - bytes }

/-- Increment of a `uint64` gauge/counter (wraps modulo `2 ^ 64`). -/
def gaugeInc (g : Nat) : Nat := (g + 1) % 2 ^ 64

/-- Decrement of a `uint64` gauge (two's-complement wrap modulo `2 ^ 64`). -/
def gaugeDec (g : Nat) : Nat := (g + (2 ^ 64 - 1)) % 2 ^ 64

/-- The `OperationTracker::Metrics` block: one aggregate in-flight gauge, one gauge per
operation category, and the monotonic rejection counter. -/
structure Metrics where
  all_operations_inflight : Nat
  write_operations_inflight : Nat
  alter_schema_operations_inflight : Nat
  update_transaction_operations_inflight : Nat
  snapshot_operations_inflight : Nat
  truncate_operations_inflight : Nat
  operation_memory_pressure_rejections : Nat
deriving DecidableEq, Repr

/-- Per-category gauge increment (`metrics_->operations_inflight[ty]->Increment()`). -/
def Metrics.incInflight (m : Metrics) (ty : OperationType) : Metrics :=
  match ty with
  | .WRITE_TXN =>
      { m with write_operations_inflight := gaugeInc m.write_operations_inflight }
  | .ALTER_SCHEMA_TXN =>
      { m with alter_schema_operations_inflight :=
          gaugeInc m.alter_schema_operations_inflight }
  | .UPDATE_TRANSACTION_TXN =>
      { m with update_transaction_operations_inflight :=
          gaugeInc m.update_transaction_operations_inflight }
  | .SNAPSHOT_TXN =>
      { m with snapshot_operations_inflight :=
          gaugeInc m.snapshot_operations_inflight }
  | .TRUNCATE_TXN =>
      { m with truncate_operations_inflight :=
          gaugeInc m.truncate_operations_inflight }

/-- Per-category gauge decrement (`metrics_->operations_inflight[ty]->Decrement()`). -/
def Metrics.decInflight (m : Metrics) (ty : OperationType) : Metrics :=
  match ty with
  | .WRITE_TXN =>
      { m with write_operations_inflight := gaugeDec m.write_operations_inflight }
  | .ALTER_SCHEMA_TXN =>
      { m with alter_schema_operations_inflight :=
          gaugeDec m.alter_schema_operations_inflight }
  | .UPDATE_TRANSACTION_TXN =>
      { m with update_transaction_operations_inflight :=
          gaugeDec m.update_transaction_operations_inflight }
  | .SNAPSHOT_TXN =>
      { m with snapshot_operations_inflight :=
          gaugeDec m.snapshot_operations_inflight }
  | .TRUNCATE_TXN =>
      { m with truncate_operations_inflight :=
          gaugeDec m.truncate_operations_inflight }

/-- Body of `OperationTracker::IncrementCounters` once metrics are known to
be attached: increment the aggregate and the per-category gauge. -/
def Metrics.incrementCounters (m : Metrics) (ty : OperationType) : Metrics :=
  { m.incInflight ty with
      all_operations_inflight := gaugeInc m.all_operations_inflight }

/-- Body of `OperationTracker::DecrementCounters` once metrics are known to
be attached: decrement the aggregate and the per-category gauge. -/
def Metrics.decrementCounters (m : Metrics) (ty : OperationType) : Metrics :=
  { m.decInflight ty with
      all_operations_inflight := gaugeDec m.all_operations_inflight }

/-- Rejection counter increment (`metrics_->operation_memory_pressure_rejections->Increment()`). -/
def Metrics.incRejections (m : Metrics) : Metrics :=
  { m with operation_memory_pressure_rejections :=
      gaugeInc m.operation_memory_pressure_rejections }

/-- The slice of `OperationDriver` the tracker reads: a stable identity (the
pointer, modelled as a `Nat`), `operation_type()`, the request footprint
`state()->request()->SpaceUsed()`, and the owning tablet id
(`state()->tablet()`, which may be null in unit tests). -/
structure OperationDriver where
  id : Nat
  opType : OperationType
  spaceUsed : Int
  tabletId : Option String
deriving DecidableEq, Repr

/-- The `OperationTracker::State` record: the per-operation record cached at admission
time (`memory_footprint`). -/
structure OperationTracker.State where
  memory_footprint : Int
deriving DecidableEq, Repr

/-- The registry state: `pending_operations_` (an association list keyed by
driver identity), the optional memory budget `mem_tracker_`, and the
optional `metrics_` block. -/
structure OperationTracker where
  pending_operations : List (Nat × OperationTracker.State)
  mem_tracker : Option MemTracker
  metrics : Option Metrics
deriving DecidableEq, Repr

/-- Lookup of a driver identity in `pending_operations_` (`FindOrDie` /
`emplace` collision check). -/
def lookupPending (l : List (Nat × OperationTracker.State)) (id : Nat) :
    Option OperationTracker.State :=
  (l.find? (fun p => p.1 == id)).map (fun p => p.2)

/-- Erasure `pending_operations_.erase(driver)`: remove the entry with the given
identity. -/
def erasePending (l : List (Nat × OperationTracker.State)) (id : Nat) :
    List (Nat × OperationTracker.State) :=
  l.eraseP (fun p => p.1 == id)

/-- The diagnostic message built by `OperationTracker::Add` on rejection
(`Substitute` of the tablet id or "(unknown)", the budget's current
consumption, and its limit). -/
def rejectMessage (tabletId : Option String) (consumption limit : Int) : String :=
  "Operation failed, tablet " ++
    (match tabletId with
     | some id => id
     | none => "(unknown)") ++
    " operation memory consumption (" ++ toString consumption ++
    ") has exceeded its limit (" ++ toString limit ++
    ") or the limit of an ancestral tracker"

/-- Outcome of `OperationTracker::Add`: `Status::OK`, the
`ServiceUnavailable` rejection status (the spec's
`AdmissionError::ResourceExhausted`), or the fatal `CHECK` failure on a
duplicate identity.  Each outcome carries the tracker state at return /
abort time. -/
inductive AddResult where
  | ok (t : OperationTracker)
  | serviceUnavailable (t : OperationTracker) (msg : String)
  | fatalDuplicate (t : OperationTracker)
deriving DecidableEq, Repr

/-- Tail of `OperationTracker::Add` after the memory gate:
`IncrementCounters`, then `CHECK(pending_operations_.emplace(driver, st).second)`. -/
def OperationTracker.addInsert (t : OperationTracker) (driver : OperationDriver)
    (fp : Int) : AddResult :=
  let t1 := { t with metrics := t.metrics.map (fun m => m.incrementCounters driver.opType) }
  if (lookupPending t1.pending_operations driver.id).isSome then
    .fatalDuplicate t1
  else
    .ok { t1 with pending_operations := (driver.id, ⟨fp⟩) :: t1.pending_operations }

/-- The embedding of `OperationTracker::Add`: compute the footprint; if a memory budget is
attached, attempt `TryConsume` — on failure increment the rejection counter
(if metrics are attached) and return `ServiceUnavailable` with the
diagnostic message; otherwise increment the in-flight gauges and insert the
operation into the pending-set (duplicate insertion is fatal). -/
def OperationTracker.Add (t : OperationTracker) (driver : OperationDriver)
    (ancestorOk : Bool) : AddResult :=
  let driver_mem_footprint := driver.spaceUsed
  match t.mem_tracker with
  | some mt =>
    match mt.tryConsume driver_mem_footprint ancestorOk with
    | (false, mtUnchanged) =>
      let metricsAfter := t.metrics.map Metrics.incRejections
      .serviceUnavailable
        { t with metrics := metricsAfter, mem_tracker := some mtUnchanged }
        (rejectMessage driver.tabletId mtUnchanged.consumption mtUnchanged.limit)
    | (true, mtAfter) =>
      OperationTracker.addInsert { t with mem_tracker := some mtAfter } driver
        driver_mem_footprint
  | none => OperationTracker.addInsert t driver driver_mem_footprint

/-- Micro-events of `OperationTracker::Release`, in the order the code
performs them: gauge decrement, pending-set erase, memory release. -/
inductive Micro where
  | decGauges
  | eraseEntry (id : Nat)
  | releaseMem (bytes : Int)
deriving DecidableEq, Repr

/-- Outcome of `OperationTracker::Release`: normal return, or the fatal
`FindOrDie` / erase failure on a missing identity (carrying the tracker
state at abort time). -/
inductive ReleaseResult where
  | ok (t : OperationTracker)
  | fatalMissing (t : OperationTracker)
deriving DecidableEq, Repr

/-- The embedding of `OperationTracker::Release`: `DecrementCounters` first (a no-op without
metrics); then, under the lock, `FindOrDie` the recorded state and erase the
entry (missing identity is fatal); finally release the recorded footprint
back to the memory budget, if one is attached.  The returned event list
records the order in which the three effects happen. -/
def OperationTracker.Release (t : OperationTracker) (driver : OperationDriver) :
    ReleaseResult × List Micro :=
  let step1 : Option Metrics × List Micro :=
    match t.metrics with
    | none => (none, [])
    | some m => (some (m.decrementCounters driver.opType), [Micro.decGauges])
  let t1 := { t with metrics := step1.1 }
  match lookupPending t1.pending_operations driver.id with
  | none => (.fatalMissing t1, step1.2)
  | some st =>
    let t2 := { t1 with
      pending_operations := erasePending t1.pending_operations driver.id }
    match t2.mem_tracker with
    | none => (.ok t2, step1.2 ++ [Micro.eraseEntry driver.id])
    | some mt =>
      (.ok { t2 with mem_tracker := some (mt.release st.memory_footprint) },
       step1.2 ++ [Micro.eraseEntry driver.id, Micro.releaseMem st.memory_footprint])

/-- The embedding of `OperationTracker::GetNumPendingForTests` (`PendingCount()` in the
spec): the size of the pending-set. -/
def OperationTracker.GetNumPendingForTests (t : OperationTracker) : Nat :=
  t.pending_operations.length

/-- Outcome of `OperationTracker::~OperationTracker`, which
`CHECK_EQ(pending_operations_.size(), 0)`. -/
inductive DtorResult where
  | ok
  | fatalNonEmpty
deriving DecidableEq, Repr

/-- The destructor's pending-set check: fatal when the pending-set is
non-empty at teardown. -/
def OperationTracker.destructor (t : OperationTracker) : DtorResult :=
  if t.pending_operations.length = 0 then .ok else .fatalNonEmpty

/-- The embedding of `OperationTracker::StartMemoryTracking`: create the child budget node
with limit `flag * 1024 * 1024` bytes unless the flag holds the sentinel
`-1`, in which case no node is attached at all. -/
def OperationTracker.StartMemoryTracking (t : OperationTracker)
    (flagLimitMb : Int) : OperationTracker :=
  if flagLimitMb ≠ -1 then
    { t with mem_tracker := some { limit := flagLimitMb * 1024 * 1024, consumption := 0 } }
  else
    t

/-- The environment `WaitForAllToFinish` observes: the size of the
`GetPendingOperations()` snapshot at the k-th poll, and the elapsed
wall-clock time `MonoTime::Now().GetDeltaSince(start_time)` at the k-th
poll (in nanoseconds, like `MonoDelta`). -/
structure DrainEnv where
  pendingAt : Nat → Nat
  elapsedAt : Nat → Nat

/-- Outcome of `WaitForAllToFinish(timeout)` (`Drain` in the spec):
`Status::OK`, or `TimedOut` carrying the pending count and the elapsed
duration; `outOfFuel` marks runs longer than the fuel bound of the model. -/
inductive DrainResult where
  | ok
  | timedOut (pendingCount : Nat) (elapsedTime : Nat)
  | outOfFuel
deriving DecidableEq, Repr

/-- One update of the backoff variable:
`wait_time = std::min(wait_time * 5 / 4, 1000000)`. -/
def nextWaitTime (w : Nat) : Nat := min (w * 5 / 4) 1000000

/-- The polling loop of `OperationTracker::WaitForAllToFinish`: at each poll
take the pending snapshot; if empty, break with OK; else if the elapsed
time strictly exceeds the timeout, return `TimedOut` with the pending count
and the elapsed duration; else advance the backoff variable and sleep for
it.  The returned list records every sleep duration, in order; `fuel`
bounds the number of polls. -/
def waitLoop (env : DrainEnv) (timeout : Nat) :
    Nat → Nat → Nat → DrainResult × List Nat
  | 0, _, _ => (.outOfFuel, [])
  | fuel + 1, k, wait_time =>
    if env.pendingAt k = 0 then
      (.ok, [])
    else if env.elapsedAt k > timeout then
      (.timedOut (env.pendingAt k) (env.elapsedAt k), [])
    else
      let w := nextWaitTime wait_time
      let rest := waitLoop env timeout fuel (k + 1) w
      (rest.1, w :: rest.2)

/-- The embedding of `OperationTracker::WaitForAllToFinish(timeout)`: run the polling loop
from the first poll with the backoff variable initialized to 250. -/
def WaitForAllToFinish (env : DrainEnv) (timeout fuel : Nat) :
    DrainResult × List Nat :=
  waitLoop env timeout fuel 0 250

/-- The sequence of sleep durations the drain loop performs: the backoff
variable starts at 250 and is advanced by `nextWaitTime` before every
sleep, the first one included. -/
def sleepSeq (i : Nat) : Nat := nextWaitTime^[i + 1] 250

/-- A call in a client history: an `Add` attempt (with the ancestor-budget
oracle for its reservation) or a `Release`. -/
inductive Event where
  | callAdd (d : OperationDriver) (ancestorOk : Bool)
  | callRelease (d : OperationDriver)
deriving Repr

/-- Run a history of `Add`/`Release` calls against a tracker, counting the
admits that succeeded and the releases performed; a fatal invariant
violation aborts the run (`none`). -/
def runEvents (t : OperationTracker) : List Event → Option (OperationTracker × Nat × Nat)
  | [] => some (t, 0, 0)
  | Event.callAdd d ao :: rest =>
    match t.Add d ao with
    | .ok t' => (runEvents t' rest).map (fun x => (x.1, x.2.1 + 1, x.2.2))
    | .serviceUnavailable t' _ => runEvents t' rest
    | .fatalDuplicate _ => none
  | Event.callRelease d :: rest =>
    match (t.Release d).1 with
    | .ok t' => (runEvents t' rest).map (fun x => (x.1, x.2.1, x.2.2 + 1))
    | .fatalMissing _ => none

/-! Helper lemmas -/

theorem tryConsume_eq_false {mt : MemTracker} {b : Int} {ao : Bool}
    (h : (mt.tryConsume b ao).1 = false) : mt.tryConsume b ao = (false, mt) := by
  by_cases hc : (ao = true) ∧ mt.consumption + b ≤ mt.limit
  · simp [MemTracker.tryConsume, hc] at h
  · simp [MemTracker.tryConsume, hc]

theorem tryConsume_eq_true {mt : MemTracker} {b : Int} {ao : Bool}
    (h : (mt.tryConsume b ao).1 = true) :
    mt.tryConsume b ao = (true, { mt with consumption := mt.consumption + b }) := by
  by_cases hc : (ao = true) ∧ mt.consumption + b ≤ mt.limit
  · simp [MemTracker.tryConsume, hc]
  · simp [MemTracker.tryConsume, hc] at h

theorem addInsert_ok {t t' : OperationTracker} {d : OperationDriver} {fp : Int}
    (h : t.addInsert d fp = .ok t') :
    lookupPending t.pending_operations d.id = none ∧
    t' = { t with
      metrics := t.metrics.map (fun m => m.incrementCounters d.opType),
      pending_operations := (d.id, ⟨fp⟩) :: t.pending_operations } := by
  simp only [OperationTracker.addInsert] at h
  split at h
  · exact absurd h (by simp)
  · next hns =>
    refine ⟨?_, ?_⟩
    · simpa using hns
    · injection h with h2
      exact h2.symm

/-! C1: rejection under memory pressure -/

/-- C1: when a memory budget is attached and its reservation fails, `Add`
returns the `ServiceUnavailable` rejection (the spec's
`AdmissionError::ResourceExhausted`) whose message names the owning tablet
(or "(unknown)" when the tablet is unavailable), the current consumption
and the limit; the rejection counter is incremented exactly when metrics
are attached; the pending-set and the memory budget are unchanged. -/
theorem add_rejected_under_memory_pressure
    (t : OperationTracker) (d : OperationDriver) (ao : Bool) (mt : MemTracker)
    (hmem : t.mem_tracker = some mt)
    (hfail : (mt.tryConsume d.spaceUsed ao).1 = false) :
    t.Add d ao = .serviceUnavailable
      { pending_operations := t.pending_operations,
        mem_tracker := t.mem_tracker,
        metrics := t.metrics.map Metrics.incRejections }
      (rejectMessage d.tabletId mt.consumption mt.limit) := by
  simp only [OperationTracker.Add, hmem, tryConsume_eq_false hfail]

/-- Witness for C1 at a concrete input. -/
def metrics0 : Metrics := ⟨0, 0, 0, 0, 0, 0, 0⟩

def trackerRejEx : OperationTracker :=
  { pending_operations := [], mem_tracker := some ⟨100, 50⟩, metrics := some metrics0 }

def driverRejEx : OperationDriver :=
  { id := 1, opType := .WRITE_TXN, spaceUsed := 60, tabletId := none }

theorem add_rejected_under_memory_pressure_witness :
    trackerRejEx.Add driverRejEx true = .serviceUnavailable
      { pending_operations := trackerRejEx.pending_operations,
        mem_tracker := trackerRejEx.mem_tracker,
        metrics := trackerRejEx.metrics.map Metrics.incRejections }
      (rejectMessage driverRejEx.tabletId (50 : Int) (100 : Int)) :=
  add_rejected_under_memory_pressure trackerRejEx driverRejEx true ⟨100, 50⟩ rfl
    (by decide)

theorem Release_head {t : OperationTracker} {d : OperationDriver}
    {st : OperationTracker.State} {rest : List (Nat × OperationTracker.State)}
    (hp : t.pending_operations = (d.id, st) :: rest) :
    t.Release d =
    (.ok
      { pending_operations := rest,
        mem_tracker := t.mem_tracker.map (fun mt => mt.release st.memory_footprint),
        metrics := t.metrics.map (fun m => m.decrementCounters d.opType) },
      (match t.metrics with
       | some _ => [Micro.decGauges]
       | none => ([] : List Micro)) ++
      [Micro.eraseEntry d.id] ++
      (match t.mem_tracker with
       | some _ => [Micro.releaseMem st.memory_footprint]
       | none => ([] : List Micro))) := by
  cases hm : t.metrics <;> cases hmem : t.mem_tracker <;>
    simp [OperationTracker.Release, lookupPending, erasePending, hp, hm, hmem]

/-! C2: admit/release round-trip -/

/-- C2: releasing an operation right after a successful `Add` restores the
memory budget (in particular its consumption) to exactly the value it had
before the `Add` — the release gives back exactly the footprint recorded at
admission time — and also restores the pending-set. -/
theorem admit_release_roundtrip
    (t t' : OperationTracker) (d : OperationDriver) (ao : Bool)
    (hok : t.Add d ao = .ok t') :
    ∃ t'', (t'.Release d).1 = .ok t'' ∧ t''.mem_tracker = t.mem_tracker ∧
      t''.pending_operations = t.pending_operations := by
  cases hmt : t.mem_tracker with
  | none =>
    simp only [OperationTracker.Add, hmt] at hok
    obtain ⟨-, ht'⟩ := addInsert_ok hok
    refine ⟨_, by rw [Release_head (by rw [ht'])], ?_, ?_⟩ <;> simp [ht', hmt]
  | some mt =>
    simp only [OperationTracker.Add, hmt] at hok
    cases htc : (mt.tryConsume d.spaceUsed ao).1 with
    | false => rw [tryConsume_eq_false htc] at hok; simp at hok
    | true =>
      rw [tryConsume_eq_true htc] at hok
      obtain ⟨-, ht'⟩ := addInsert_ok hok
      refine ⟨_, by rw [Release_head (by rw [ht'])], ?_, ?_⟩ <;>
        simp [ht', hmt, MemTracker.release, add_sub_cancel_right]

/-- Witness for C2 at a concrete input. -/
def trackerRT : OperationTracker :=
  { pending_operations := [], mem_tracker := some ⟨1000, 7⟩, metrics := some metrics0 }

def driverRT : OperationDriver :=
  { id := 4, opType := .WRITE_TXN, spaceUsed := 10, tabletId := some "tab" }

def trackerRTAfter : OperationTracker :=
  { pending_operations := [(4, ⟨10⟩)], mem_tracker := some ⟨1000, 17⟩,
    metrics := some (metrics0.incrementCounters .WRITE_TXN) }

theorem admit_release_roundtrip_witness :
    ∃ t'', (trackerRTAfter.Release driverRT).1 = .ok t'' ∧
      t''.mem_tracker = trackerRT.mem_tracker ∧
      t''.pending_operations = trackerRT.pending_operations :=
  admit_release_roundtrip trackerRT trackerRTAfter driverRT true (by decide)

/-- Recognizer for the fatal duplicate-admission outcome. -/
def AddResult.isFatalDuplicate : AddResult → Bool
  | .fatalDuplicate _ => true
  | _ => false

/-- Recognizer for the `ServiceUnavailable` rejection outcome. -/
def AddResult.isServiceUnavailable : AddResult → Bool
  | .serviceUnavailable _ _ => true
  | _ => false

/-- Recognizer for the successful admission outcome. -/
def AddResult.isOk : AddResult → Bool
  | .ok _ => true
  | _ => false

/-- Recognizer for the fatal missing-identity release outcome. -/
def ReleaseResult.isFatalMissing : ReleaseResult → Bool
  | .fatalMissing _ => true
  | _ => false

/-! C7: invariant violations are fatal -/

/-- C7: duplicate admission of an identity already in the pending-set (once
the admission reaches the insertion, i.e. the memory gate does not reject
first), release of an identity not in the pending-set, and destruction with
a non-empty pending-set each produce the fatal abort outcome, not an
ordinary returned status. -/
theorem invariant_violations_are_fatal :
    (∀ (t : OperationTracker) (d : OperationDriver) (ao : Bool),
      (lookupPending t.pending_operations d.id).isSome = true →
      (∀ mt, t.mem_tracker = some mt → (mt.tryConsume d.spaceUsed ao).1 = true) →
      (t.Add d ao).isFatalDuplicate = true) ∧
    (∀ (t : OperationTracker) (d : OperationDriver),
      lookupPending t.pending_operations d.id = none →
      ((t.Release d).1).isFatalMissing = true) ∧
    (∀ t : OperationTracker, t.pending_operations ≠ [] →
      t.destructor = .fatalNonEmpty) := by
  refine ⟨?_, ?_, ?_⟩
  · intro t d ao hdup hmem
    cases hmt : t.mem_tracker with
    | none =>
      simp [OperationTracker.Add, hmt, OperationTracker.addInsert, hdup,
        AddResult.isFatalDuplicate]
    | some mt =>
      have hred : t.Add d ao = OperationTracker.addInsert
          { pending_operations := t.pending_operations,
            mem_tracker :=
              some { limit := mt.limit, consumption := mt.consumption + d.spaceUsed },
            metrics := t.metrics }
          d d.spaceUsed := by
        simp [OperationTracker.Add, hmt, tryConsume_eq_true (hmem mt hmt)]
      rw [hred]
      simp [OperationTracker.addInsert, hdup, AddResult.isFatalDuplicate]
  · intro t d habs
    cases hm : t.metrics <;>
      simp [OperationTracker.Release, hm, habs, ReleaseResult.isFatalMissing]
  · intro t hne
    simp [OperationTracker.destructor, List.length_eq_zero, hne]

/-- Witness for C7 at concrete inputs. -/
def trackerDupEx : OperationTracker :=
  { pending_operations := [(1, ⟨5⟩)], mem_tracker := none, metrics := none }

def driverDupEx : OperationDriver :=
  { id := 1, opType := .WRITE_TXN, spaceUsed := 5, tabletId := none }

def driverMissEx : OperationDriver :=
  { id := 2, opType := .SNAPSHOT_TXN, spaceUsed := 3, tabletId := none }

theorem invariant_violations_are_fatal_witness :
    (trackerDupEx.Add driverDupEx true).isFatalDuplicate = true ∧
    ((trackerDupEx.Release driverMissEx).1).isFatalMissing = true ∧
    trackerDupEx.destructor = .fatalNonEmpty := by
  obtain ⟨h1, h2, h3⟩ := invariant_violations_are_fatal
  refine ⟨h1 trackerDupEx driverDupEx true (by decide) ?_,
    h2 trackerDupEx driverMissEx (by decide), h3 trackerDupEx (by decide)⟩
  intro mt hmt
  simp [trackerDupEx] at hmt

/-! C8: sentinel -1 disables memory tracking -/

/-- C8: with the sentinel flag value `-1`, `StartMemoryTracking` attaches no
budget node; with no budget node attached, `Add` never returns the
resource-exhaustion rejection, its outcome does not depend on the budget
oracle at all, it succeeds whenever the identity is fresh, and `Release`
never performs a memory release. -/
theorem disabled_memory_tracking :
    (∀ t : OperationTracker, t.StartMemoryTracking (-1) = t) ∧
    (∀ (t : OperationTracker) (d : OperationDriver) (ao ao' : Bool),
      t.mem_tracker = none →
      (t.Add d ao).isServiceUnavailable = false ∧
      t.Add d ao = t.Add d ao' ∧
      (lookupPending t.pending_operations d.id = none →
        (t.Add d ao).isOk = true)) ∧
    (∀ (t : OperationTracker) (d : OperationDriver) (b : Int),
      t.mem_tracker = none →
      Micro.releaseMem b ∉ (t.Release d).2) := by
  refine ⟨?_, ?_, ?_⟩
  · intro t
    simp [OperationTracker.StartMemoryTracking]
  · intro t d ao ao' hmem
    refine ⟨?_, ?_, ?_⟩
    · simp only [OperationTracker.Add, hmem, OperationTracker.addInsert]
      split <;> rfl
    · simp only [OperationTracker.Add, hmem]
    · intro habs
      simp [OperationTracker.Add, hmem, OperationTracker.addInsert, habs,
        AddResult.isOk]
  · intro t d b hmem
    cases hm : t.metrics <;>
      cases hl : lookupPending t.pending_operations d.id <;>
        simp [OperationTracker.Release, hm, hmem, hl]

/-- Witness for C8 at concrete inputs. -/
def trackerNoMemEx : OperationTracker :=
  { pending_operations := [], mem_tracker := none, metrics := some metrics0 }

def driverNoMemEx : OperationDriver :=
  { id := 7, opType := .TRUNCATE_TXN, spaceUsed := 9, tabletId := none }

theorem disabled_memory_tracking_witness :
    trackerNoMemEx.StartMemoryTracking (-1) = trackerNoMemEx ∧
    (trackerNoMemEx.Add driverNoMemEx true).isServiceUnavailable = false ∧
    trackerNoMemEx.Add driverNoMemEx true = trackerNoMemEx.Add driverNoMemEx false ∧
    (trackerNoMemEx.Add driverNoMemEx true).isOk = true ∧
    Micro.releaseMem 9 ∉ (trackerNoMemEx.Release driverNoMemEx).2 := by
  obtain ⟨h1, h2, h3⟩ := disabled_memory_tracking
  obtain ⟨ha, hb, hc⟩ := h2 trackerNoMemEx driverNoMemEx true false rfl
  exact ⟨h1 trackerNoMemEx, ha, hb, hc rfl, h3 trackerNoMemEx driverNoMemEx 9 rfl⟩

/-! C9: release event ordering -/

/-- C9: releasing a tracked operation decrements the gauges (when metrics
are attached) strictly before the identity is removed from the pending-set,
and releases the recorded footprint back to the budget (when one is
attached) strictly after the removal — never before. -/
theorem release_event_order
    (t : OperationTracker) (d : OperationDriver) (st : OperationTracker.State)
    (hp : lookupPending t.pending_operations d.id = some st) :
    (t.Release d).2 =
      (match t.metrics with
       | some _ => [Micro.decGauges]
       | none => ([] : List Micro)) ++
      [Micro.eraseEntry d.id] ++
      (match t.mem_tracker with
       | some _ => [Micro.releaseMem st.memory_footprint]
       | none => ([] : List Micro)) := by
  cases hm : t.metrics <;> cases hmem : t.mem_tracker <;>
    simp [OperationTracker.Release, hp, hm, hmem]

/-- Witness for C9 at a concrete input. -/
def trackerRelEx : OperationTracker :=
  { pending_operations := [(1, ⟨5⟩)], mem_tracker := some ⟨100, 5⟩,
    metrics := some metrics0 }

def driverRelEx : OperationDriver :=
  { id := 1, opType := .WRITE_TXN, spaceUsed := 5, tabletId := none }

theorem release_event_order_witness :
    (trackerRelEx.Release driverRelEx).2 =
      [Micro.decGauges] ++ [Micro.eraseEntry 1] ++ [Micro.releaseMem 5] :=
  release_event_order trackerRelEx driverRelEx ⟨5⟩ (by decide)

/-! C10: gauges are mutated before the missing-identity abort -/

/-- C10: calling `Release` with metrics attached on an identity absent from
the pending-set decrements the in-flight gauges first and only then hits
the fatal missing-identity check: at the moment of the abort the gauge
state is already mutated (the aggregate gauge no longer holds its previous
value). -/
theorem release_missing_gauges_mutated
    (t : OperationTracker) (d : OperationDriver) (m : Metrics)
    (hm : t.metrics = some m)
    (habs : lookupPending t.pending_operations d.id = none) :
    t.Release d =
      (.fatalMissing { t with metrics := some (m.decrementCounters d.opType) },
       [Micro.decGauges]) ∧
    (m.decrementCounters d.opType).all_operations_inflight ≠
      m.all_operations_inflight := by
  constructor
  · simp [OperationTracker.Release, hm, habs]
  · have h64 : (2 : Nat) ^ 64 = 18446744073709551616 := by norm_num
    simp only [Metrics.decrementCounters, gaugeDec, h64]
    omega

/-- Witness for C10 at a concrete input. -/
def trackerMissEx : OperationTracker :=
  { pending_operations := [], mem_tracker := none, metrics := some metrics0 }

theorem release_missing_gauges_mutated_witness :
    trackerMissEx.Release driverMissEx =
      (.fatalMissing { trackerMissEx with
        metrics := some (metrics0.decrementCounters OperationType.SNAPSHOT_TXN) },
       [Micro.decGauges]) ∧
    (metrics0.decrementCounters OperationType.SNAPSHOT_TXN).all_operations_inflight ≠
      metrics0.all_operations_inflight :=
  release_missing_gauges_mutated trackerMissEx driverMissEx metrics0 rfl rfl

/-! C5: drain on an empty pending-set -/

/-- C5: a `Drain` call that observes an empty pending-set at its first poll
returns success immediately — no sleep is performed and no `TimedOut` is
returned — for every timeout value, a zero timeout included. -/
theorem drain_empty_returns_immediately
    (env : DrainEnv) (timeout fuel : Nat) (hfuel : 1 ≤ fuel)
    (hempty : env.pendingAt 0 = 0) :
    WaitForAllToFinish env timeout fuel = (.ok, []) := by
  cases fuel with
  | zero => omega
  | succ n => simp [WaitForAllToFinish, waitLoop, hempty]

/-- Witness for C5 at a concrete input (zero timeout). -/
def envEmptyEx : DrainEnv := ⟨fun _ => 0, fun _ => 0⟩

theorem drain_empty_returns_immediately_witness :
    WaitForAllToFinish envEmptyEx 0 1 = (.ok, []) :=
  drain_empty_returns_immediately envEmptyEx 0 1 (by decide) rfl

/-! C6: drain timeout -/

theorem waitLoop_timeout_aux (env : DrainEnv) (timeout : Nat)
    (hne : ∀ i, env.pendingAt i ≠ 0) :
    ∀ (fuel k w K : Nat), k ≤ K → env.elapsedAt K > timeout → K - k < fuel →
      ∃ j, k ≤ j ∧ j ≤ K ∧
        (waitLoop env timeout fuel k w).1 =
          .timedOut (env.pendingAt j) (env.elapsedAt j) ∧
        env.elapsedAt j > timeout := by
  intro fuel
  induction fuel with
  | zero => intro k w K hkK hK hlt; omega
  | succ n ih =>
    intro k w K hkK hK hlt
    by_cases h2 : env.elapsedAt k > timeout
    · exact ⟨k, Nat.le_refl k, hkK, by simp [waitLoop, hne k, h2], h2⟩
    · have hkK' : k < K := by
        rcases Nat.lt_or_ge k K with h | h
        · exact h
        · exact absurd (Nat.le_antisymm hkK h ▸ hK) h2
      obtain ⟨j, hj1, hj2, hj3, hj4⟩ :=
        ih (k + 1) (nextWaitTime w) K (by omega) hK (by omega)
      refine ⟨j, by omega, hj2, ?_, hj4⟩
      rw [← hj3]
      simp [waitLoop, hne k, h2]

/-- C6: a `Drain` whose polls never observe an empty pending-set returns,
once the elapsed wall-clock time exceeds the timeout, a `TimedOut` error
carrying the pending operation count and the elapsed duration (both taken
at the poll that detected the expiry). -/
theorem drain_timeout
    (env : DrainEnv) (timeout fuel K : Nat)
    (hne : ∀ i, env.pendingAt i ≠ 0)
    (hK : env.elapsedAt K > timeout)
    (hfuel : K < fuel) :
    ∃ j, j ≤ K ∧
      (WaitForAllToFinish env timeout fuel).1 =
        .timedOut (env.pendingAt j) (env.elapsedAt j) ∧
      env.elapsedAt j > timeout := by
  obtain ⟨j, -, hj2, hj3, hj4⟩ :=
    waitLoop_timeout_aux env timeout hne fuel 0 250 K (Nat.zero_le K) hK
      (by omega)
  exact ⟨j, hj2, hj3, hj4⟩

/-- Witness for C6 at a concrete input. -/
def envStuckEx : DrainEnv := ⟨fun _ => 1, fun _ => 5⟩

theorem drain_timeout_witness :
    ∃ j, j ≤ 0 ∧
      (WaitForAllToFinish envStuckEx 3 1).1 =
        .timedOut (envStuckEx.pendingAt j) (envStuckEx.elapsedAt j) ∧
      envStuckEx.elapsedAt j > 3 :=
  drain_timeout envStuckEx 3 1 0 (fun _ => Nat.one_ne_zero) (by decide) (by decide)

/-! C4: drain backoff -/

/-- C4 counterexample: in a drain run that performs exactly one sleep, the
sleep interval is 312 microseconds, not 250: the backoff variable is
initialized to 250 but is advanced (`min (w * 5 / 4) 1000000`) before the
first sleep is performed, so no sleep of 250 microseconds ever happens. -/
def envOnePollEx : DrainEnv :=
  ⟨fun k => if k = 0 then 1 else 0, fun _ => 0⟩

theorem drain_backoff_counterexample :
    (WaitForAllToFinish envOnePollEx 10 2).2 = [312] ∧ (312 : Nat) ≠ 250 := by
  constructor
  · rfl
  · decide

theorem waitLoop_sleep_values (env : DrainEnv) (timeout : Nat) :
    ∀ (fuel k w i s : Nat),
      ((waitLoop env timeout fuel k w).2).get? i = some s →
      s = nextWaitTime^[i + 1] w := by
  intro fuel
  induction fuel with
  | zero => intro k w i s h; simp [waitLoop] at h
  | succ n ih =>
    intro k w i s h
    by_cases h1 : env.pendingAt k = 0
    · simp [waitLoop, h1] at h
    · by_cases h2 : env.elapsedAt k > timeout
      · simp [waitLoop, h1, h2] at h
      · rw [show (waitLoop env timeout (n + 1) k w).2 =
            nextWaitTime w :: (waitLoop env timeout n (k + 1) (nextWaitTime w)).2 by
          simp [waitLoop, h1, h2]] at h
        cases i with
        | zero =>
          simp at h
          rw [← h, Function.iterate_one]
        | succ j =>
          simp only [List.get?_cons_succ] at h
          rw [ih (k + 1) (nextWaitTime w) j s h,
            ← Function.iterate_succ_apply nextWaitTime (j + 1) w]

/-- C4 amended: the backoff variable starts at 250 microseconds but is
advanced before every sleep, the first one included, by
`w := min (w * 5 / 4) 1000000` (a 1.25x growth rounded down by integer
division, capped at 1,000,000 microseconds); hence the i-th sleep equals
`sleepSeq i`, the first sleep is 312 microseconds, and no sleep exceeds
1,000,000 microseconds. -/
theorem drain_backoff_amended
    (env : DrainEnv) (timeout fuel i s : Nat)
    (h : ((WaitForAllToFinish env timeout fuel).2).get? i = some s) :
    s = sleepSeq i ∧ sleepSeq 0 = 312 ∧
    sleepSeq (i + 1) = min (sleepSeq i * 5 / 4) 1000000 ∧ s ≤ 1000000 := by
  have hv := waitLoop_sleep_values env timeout fuel 0 250 i s h
  refine ⟨hv, by decide, ?_, ?_⟩
  · simp only [sleepSeq]
    rw [Function.iterate_succ_apply' nextWaitTime (i + 1) 250]
    rfl
  · rw [hv]
    rw [Function.iterate_succ_apply' nextWaitTime i 250]
    exact Nat.min_le_right _ _

/-- Witness for C4's amended claim at a concrete input (a run with two
sleeps; its second sleep is 390 microseconds). -/
def envTwoPollsEx : DrainEnv :=
  ⟨fun k => if k < 2 then 1 else 0, fun _ => 0⟩

theorem drain_backoff_amended_witness :
    (390 : Nat) = sleepSeq 1 ∧ sleepSeq 0 = 312 ∧
    sleepSeq 2 = min (sleepSeq 1 * 5 / 4) 1000000 ∧ (390 : Nat) ≤ 1000000 :=
  drain_backoff_amended envTwoPollsEx 10 3 1 390 (by decide)

/-! C3: pending count equals successful admits minus releases -/

theorem length_erasePending {l : List (Nat × OperationTracker.State)} {i : Nat}
    (h : (lookupPending l i).isSome = true) :
    (erasePending l i).length + 1 = l.length := by
  unfold lookupPending at h
  unfold erasePending
  obtain ⟨x, hx⟩ := Option.isSome_iff_exists.mp h
  obtain ⟨pr, hpr, -⟩ := Option.map_eq_some'.mp hx
  have hmem : pr ∈ l := List.mem_of_find?_eq_some hpr
  have hp := @List.find?_some _ (fun p : Nat × OperationTracker.State => p.1 == i)
    pr l hpr
  exact @List.length_eraseP_add_one _
    (fun p : Nat × OperationTracker.State => p.1 == i) l pr hmem hp

theorem Release_found {t : OperationTracker} {d : OperationDriver}
    {st : OperationTracker.State}
    (hp : lookupPending t.pending_operations d.id = some st) :
    (t.Release d).1 = .ok
      { pending_operations := erasePending t.pending_operations d.id,
        mem_tracker := t.mem_tracker.map (fun mt => mt.release st.memory_footprint),
        metrics := t.metrics.map (fun m => m.decrementCounters d.opType) } := by
  cases hm : t.metrics <;> cases hmem : t.mem_tracker <;>
    simp [OperationTracker.Release, hp, hm, hmem]

theorem Release_ok_inv {t t' : OperationTracker} {d : OperationDriver}
    (h : (t.Release d).1 = .ok t') :
    (lookupPending t.pending_operations d.id).isSome = true ∧
    t'.pending_operations = erasePending t.pending_operations d.id := by
  cases hl : lookupPending t.pending_operations d.id with
  | none =>
    cases hm : t.metrics <;> simp [OperationTracker.Release, hl, hm] at h
  | some st =>
    have h2 := h.symm.trans (Release_found hl)
    injection h2 with h3
    exact ⟨rfl, by rw [h3]⟩

theorem Add_ok_inv {t t' : OperationTracker} {d : OperationDriver} {ao : Bool}
    (h : t.Add d ao = .ok t') :
    lookupPending t.pending_operations d.id = none ∧
    t'.pending_operations = (d.id, ⟨d.spaceUsed⟩) :: t.pending_operations := by
  cases hmt : t.mem_tracker with
  | none =>
    simp only [OperationTracker.Add, hmt] at h
    obtain ⟨h1, h2⟩ := addInsert_ok h
    exact ⟨h1, by rw [h2]⟩
  | some mt =>
    simp only [OperationTracker.Add, hmt] at h
    cases htc : (mt.tryConsume d.spaceUsed ao).1 with
    | false => rw [tryConsume_eq_false htc] at h; simp at h
    | true =>
      rw [tryConsume_eq_true htc] at h
      obtain ⟨h1, h2⟩ := addInsert_ok h
      exact ⟨h1, by rw [h2]⟩

theorem Add_su_inv {t t' : OperationTracker} {d : OperationDriver} {ao : Bool}
    {msg : String}
    (h : t.Add d ao = .serviceUnavailable t' msg) :
    t'.pending_operations = t.pending_operations := by
  cases hmt : t.mem_tracker with
  | none =>
    simp only [OperationTracker.Add, hmt, OperationTracker.addInsert] at h
    split at h <;> simp at h
  | some mt =>
    simp only [OperationTracker.Add, hmt] at h
    cases htc : (mt.tryConsume d.spaceUsed ao).1 with
    | false =>
      rw [tryConsume_eq_false htc] at h
      injection h with h1 h2
      rw [← h1]
    | true =>
      rw [tryConsume_eq_true htc] at h
      simp only [OperationTracker.addInsert] at h
      split at h <;> simp at h

theorem runEvents_balance :
    ∀ (evs : List Event) (t s : OperationTracker) (a r : Nat),
      runEvents t evs = some (s, a, r) →
      s.pending_operations.length + r = t.pending_operations.length + a := by
  intro evs
  induction evs with
  | nil =>
    intro t s a r h
    simp only [runEvents, Option.some.injEq, Prod.mk.injEq] at h
    obtain ⟨h1, h2, h3⟩ := h
    subst h1
    omega
  | cons e rest ih =>
    intro t s a r h
    cases e with
    | callAdd d ao =>
      simp only [runEvents] at h
      cases hadd : t.Add d ao with
      | ok t' =>
        simp only [hadd, Option.map_eq_some'] at h
        obtain ⟨⟨s0, a0, r0⟩, hrun, hf⟩ := h
        simp only [Prod.mk.injEq] at hf
        obtain ⟨hs, ha, hr⟩ := hf
        subst hs; subst ha; subst hr
        have hlen : t'.pending_operations.length = t.pending_operations.length + 1 := by
          rw [(Add_ok_inv hadd).2]
          rfl
        have hb := ih t' s0 a0 r0 hrun
        omega
      | serviceUnavailable t' msg =>
        simp only [hadd] at h
        have hlen : t'.pending_operations.length = t.pending_operations.length := by
          rw [Add_su_inv hadd]
        have hb := ih t' s a r h
        omega
      | fatalDuplicate t' =>
        simp only [hadd] at h
        exact Option.noConfusion h
    | callRelease d =>
      simp only [runEvents] at h
      cases hrel : (t.Release d).1 with
      | ok t' =>
        simp only [hrel, Option.map_eq_some'] at h
        obtain ⟨⟨s0, a0, r0⟩, hrun, hf⟩ := h
        simp only [Prod.mk.injEq] at hf
        obtain ⟨hs, ha, hr⟩ := hf
        subst hs; subst ha; subst hr
        obtain ⟨hsome, hpend⟩ := Release_ok_inv hrel
        have hlen : t'.pending_operations.length + 1 = t.pending_operations.length := by
          rw [hpend]
          exact length_erasePending hsome
        have hb := ih t' s0 a0 r0 hrun
        omega
      | fatalMissing t' =>
        simp only [hrel] at h
        exact Option.noConfusion h

theorem runEvents_append_isSome :
    ∀ (l1 l2 : List Event) (t : OperationTracker),
      (runEvents t (l1 ++ l2)).isSome = true → (runEvents t l1).isSome = true := by
  intro l1
  induction l1 with
  | nil =>
    intro l2 t h
    simp [runEvents]
  | cons e rest ih =>
    intro l2 t h
    cases e with
    | callAdd d ao =>
      rw [List.cons_append] at h
      simp only [runEvents] at h ⊢
      cases hadd : t.Add d ao with
      | ok t' =>
        simp only [hadd, Option.isSome_map'] at h ⊢
        exact ih l2 t' h
      | serviceUnavailable t' msg =>
        simp only [hadd] at h ⊢
        exact ih l2 t' h
      | fatalDuplicate t' =>
        simp only [hadd] at h
        exact absurd h (by simp)
    | callRelease d =>
      rw [List.cons_append] at h
      simp only [runEvents] at h ⊢
      cases hrel : (t.Release d).1 with
      | ok t' =>
        simp only [hrel, Option.isSome_map'] at h ⊢
        exact ih l2 t' h
      | fatalMissing t' =>
        simp only [hrel] at h
        exact absurd h (by simp)

/-- C3: for every history of `Add`/`Release` calls that runs to completion
(no fatal invariant violation), `PendingCount()` at the end, starting from
an empty registry, equals the number of admits that succeeded minus the
number of releases performed, and at every intermediate point of the
history the releases performed never exceed the successful admits (the
difference is never negative). -/
theorem pending_count_balance
    (t0 : OperationTracker) (l1 l2 : List Event) (s : OperationTracker)
    (a r : Nat)
    (hinit : t0.pending_operations = [])
    (hrun : runEvents t0 (l1 ++ l2) = some (s, a, r)) :
    (s.GetNumPendingForTests = a - r ∧ r ≤ a) ∧
    ∃ s' a' r', runEvents t0 l1 = some (s', a', r') ∧
      s'.GetNumPendingForTests = a' - r' ∧ r' ≤ a' := by
  have hbal := runEvents_balance (l1 ++ l2) t0 s a r hrun
  rw [hinit] at hbal
  simp only [List.length_nil] at hbal
  constructor
  · unfold OperationTracker.GetNumPendingForTests
    omega
  · have hps := runEvents_append_isSome l1 l2 t0 (by rw [hrun]; rfl)
    obtain ⟨⟨s', a', r'⟩, hsome⟩ := Option.isSome_iff_exists.mp hps
    have hbal' := runEvents_balance l1 t0 s' a' r' hsome
    rw [hinit] at hbal'
    simp only [List.length_nil] at hbal'
    refine ⟨s', a', r', hsome, ?_, by omega⟩
    unfold OperationTracker.GetNumPendingForTests
    omega

/-- Witness for C3 at a concrete history (two successful admits followed by
one release). -/
def trackerInitEx : OperationTracker :=
  { pending_operations := [], mem_tracker := none, metrics := none }

def driverSeqA : OperationDriver :=
  { id := 11, opType := .WRITE_TXN, spaceUsed := 5, tabletId := none }

def driverSeqB : OperationDriver :=
  { id := 12, opType := .ALTER_SCHEMA_TXN, spaceUsed := 7, tabletId := none }

def eventsPrefixEx : List Event :=
  [Event.callAdd driverSeqA true, Event.callAdd driverSeqB true]

def eventsSuffixEx : List Event := [Event.callRelease driverSeqA]

def trackerSeqFinal : OperationTracker :=
  { pending_operations := [(12, ⟨7⟩)], mem_tracker := none, metrics := none }

theorem pending_count_balance_witness :
    (trackerSeqFinal.GetNumPendingForTests = 2 - 1 ∧ 1 ≤ 2) ∧
    ∃ s' a' r', runEvents trackerInitEx eventsPrefixEx = some (s', a', r') ∧
      s'.GetNumPendingForTests = a' - r' ∧ r' ≤ a' :=
  pending_count_balance trackerInitEx eventsPrefixEx eventsSuffixEx
    trackerSeqFinal 2 1 rfl (by decide)

end YbTablet
